import Mathlib

/-!
Verification of the NToken-solana client core: fixed-offset layout codec,
instruction builders, associated-address derivation, and the token-account
state machine exercised by the test flows.

The repository's `src/` excerpt holds only the test harness and CLI callers;
the client library itself (`js/client/nToken.js`) is referenced but not
included.  The definitions below therefore model the missing library from the
design specification (`spec.md`), staying faithful to its words: fixed-offset
little-endian layouts with 1-byte presence discriminants for optional keys,
pure instruction builders, and a SHA-256 based program-derived-address scheme.
-/

set_option maxRecDepth 8000
set_option linter.unusedVariables false

namespace NToken

/-! ## Bytes and little-endian integers

A byte buffer is a `List Nat` whose entries are below 256; a 32-byte public
key is a buffer of length 32. -/

/-- A raw byte buffer. -/
abbrev Bytes := List Nat

/-- A 32-byte public key, as a raw byte buffer of length 32. -/
abbrev Key := Bytes

/-- `isBytes b` : every entry of `b` is a byte value. -/
def isBytes (b : Bytes) : Prop := ∀ x ∈ b, x < 256

instance : DecidablePred isBytes := fun b =>
  inferInstanceAs (Decidable (∀ x ∈ b, x < 256))

/-- `isKey k` : `k` is a well-formed 32-byte key. -/
def isKey (k : Key) : Prop := k.length = 32 ∧ isBytes k

instance : DecidablePred isKey := fun k =>
  inferInstanceAs (Decidable (_ ∧ _))

/-- Little-endian byte expansion of `n` over `width` bytes (low byte first). -/
def natToLE (width n : Nat) : Bytes :=
  match width with
  | 0 => []
  | w + 1 => n % 256 :: natToLE w (n / 256)

/-- Little-endian byte reassembly: inverse of `natToLE` on in-range values. -/
def natFromLE (b : Bytes) : Nat :=
  match b with
  | [] => 0
  | x :: t => x + 256 * natFromLE t

theorem natToLE_length (width n : Nat) : (natToLE width n).length = width := by
  induction width generalizing n with
  | zero => rfl
  | succ w ih => simp [natToLE, ih]

theorem natToLE_isBytes (width n : Nat) : isBytes (natToLE width n) := by
  induction width generalizing n with
  | zero => intro x hx; simp [natToLE] at hx
  | succ w ih =>
    intro x hx
    simp only [natToLE, List.mem_cons] at hx
    rcases hx with h | h
    · exact h ▸ Nat.mod_lt _ (by omega)
    · exact ih (n / 256) x h

theorem natFromLE_natToLE (width n : Nat) :
    natFromLE (natToLE width n) = n % 256 ^ width := by
  induction width generalizing n with
  | zero => simp [natToLE, natFromLE, Nat.mod_one]
  | succ w ih =>
    simp only [natToLE, natFromLE, ih]
    rw [Nat.pow_succ', Nat.mod_mul]

theorem natFromLE_natToLE_of_lt {width n : Nat} (h : n < 256 ^ width) :
    natFromLE (natToLE width n) = n := by
  rw [natFromLE_natToLE, Nat.mod_eq_of_lt h]

/-! ## Layout codec primitives

Modelled from the spec: the layout codec of `js/client/nToken.js` is absent
from `src/`; the spec (§4.1) fixes its discipline — each field at a fixed
offset/width, numeric fields little-endian unsigned, optional fields a 1-byte
presence discriminant (0 = absent) followed by a zero-filled fixed-width
region.  A writer emits a field's canonical bytes; a reader consumes a field's
span off the front of the buffer and returns the unconsumed tail. -/

/-- Write a 32-byte key field. -/
def writeKey (k : Key) : Bytes := k

/-- Write an unsigned 64-bit little-endian field. -/
def writeU64 (n : Nat) : Bytes := natToLE 8 n

/-- Write an unsigned 16-bit little-endian field. -/
def writeU16 (n : Nat) : Bytes := natToLE 2 n

/-- Write an unsigned 8-bit field. -/
def writeU8 (n : Nat) : Bytes := natToLE 1 n

/-- Write a boolean field as one byte. -/
def writeBool (v : Bool) : Bytes := [if v then 1 else 0]

/-- Write an optional 32-byte key: presence byte then the key region,
zero-filled when absent. -/
def writeOptKey : Option Key → Bytes
  | none => 0 :: List.replicate 32 0
  | some k => 1 :: k

/-- Write an optional unsigned 64-bit value: presence byte then the value
region, zero-filled when absent. -/
def writeOptU64 : Option Nat → Bytes
  | none => 0 :: List.replicate 8 0
  | some n => 1 :: natToLE 8 n

/-- Read a 32-byte key field off the front of the buffer. -/
def readKey (b : Bytes) : Key × Bytes := (b.take 32, b.drop 32)

/-- Read an unsigned 64-bit little-endian field. -/
def readU64 (b : Bytes) : Nat × Bytes := (natFromLE (b.take 8), b.drop 8)

/-- Read an unsigned 16-bit little-endian field. -/
def readU16 (b : Bytes) : Nat × Bytes := (natFromLE (b.take 2), b.drop 2)

/-- Read an unsigned 8-bit field. -/
def readU8 (b : Bytes) : Nat × Bytes := (b.headD 0, b.drop 1)

/-- Read a boolean field: any nonzero byte is `true` (pure reinterpretation,
total on any byte). -/
def readBool (b : Bytes) : Bool × Bytes := (b.headD 0 != 0, b.drop 1)

/-- Read an optional key: zero presence byte is `absent`, any nonzero byte is
`present` (total on any byte). -/
def readOptKey (b : Bytes) : Option Key × Bytes :=
  (if b.headD 0 = 0 then none else some ((b.drop 1).take 32), b.drop 33)

/-- Read an optional unsigned 64-bit value. -/
def readOptU64 (b : Bytes) : Option Nat × Bytes :=
  (if b.headD 0 = 0 then none else some (natFromLE ((b.drop 1).take 8)), b.drop 9)

/-- Validity of an optional-key field: the key, when present, is well-formed. -/
def optKeyValid : Option Key → Prop
  | none => True
  | some k => isKey k

instance : DecidablePred optKeyValid := fun o =>
  match o with
  | none => inferInstanceAs (Decidable True)
  | some k => inferInstanceAs (Decidable (isKey k))

/-- Validity of an optional-u64 field: the value, when present, fits 64 bits. -/
def optU64Valid : Option Nat → Prop
  | none => True
  | some n => n < 256 ^ 8

instance : DecidablePred optU64Valid := fun o =>
  match o with
  | none => inferInstanceAs (Decidable True)
  | some n => inferInstanceAs (Decidable (n < 256 ^ 8))

/-! Writer span lemmas. -/

theorem writeOptKey_length {o : Option Key} (h : optKeyValid o) :
    (writeOptKey o).length = 33 := by
  cases o with
  | none => simp [writeOptKey]
  | some k => simp [writeOptKey, h.1]

theorem writeOptU64_length (o : Option Nat) : (writeOptU64 o).length = 9 := by
  cases o <;> simp [writeOptU64, natToLE_length]

theorem writeU64_length (n : Nat) : (writeU64 n).length = 8 := natToLE_length 8 n

theorem writeU16_length (n : Nat) : (writeU16 n).length = 2 := natToLE_length 2 n

theorem writeU8_length (n : Nat) : (writeU8 n).length = 1 := natToLE_length 1 n

theorem writeBool_length (v : Bool) : (writeBool v).length = 1 := by
  cases v <;> rfl

/-! Reader/writer round-trip lemmas: reading a written field off the front of
a buffer recovers the field and leaves the trailing bytes untouched. -/

theorem take_append_len {a : Bytes} (c : Bytes) {n : Nat} (h : a.length = n) :
    (a ++ c).take n = a := by
  subst h; exact List.take_left a c

theorem drop_append_len {a : Bytes} (c : Bytes) {n : Nat} (h : a.length = n) :
    (a ++ c).drop n = c := by
  subst h; exact List.drop_left a c

theorem readKey_writeKey {k : Key} (h : k.length = 32) (rest : Bytes) :
    readKey (writeKey k ++ rest) = (k, rest) := by
  simp [readKey, writeKey, take_append_len rest h, drop_append_len rest h]

theorem readU64_writeU64 {n : Nat} (h : n < 256 ^ 8) (rest : Bytes) :
    readU64 (writeU64 n ++ rest) = (n, rest) := by
  simp [readU64, writeU64, take_append_len rest (natToLE_length 8 n),
    drop_append_len rest (natToLE_length 8 n), natFromLE_natToLE_of_lt h]

theorem readU16_writeU16 {n : Nat} (h : n < 256 ^ 2) (rest : Bytes) :
    readU16 (writeU16 n ++ rest) = (n, rest) := by
  simp [readU16, writeU16, take_append_len rest (natToLE_length 2 n),
    drop_append_len rest (natToLE_length 2 n), natFromLE_natToLE_of_lt h]

theorem readU8_writeU8 {n : Nat} (h : n < 256) (rest : Bytes) :
    readU8 (writeU8 n ++ rest) = (n, rest) := by
  simp [readU8, writeU8, natToLE, Nat.mod_eq_of_lt h]

theorem readBool_writeBool (v : Bool) (rest : Bytes) :
    readBool (writeBool v ++ rest) = (v, rest) := by
  cases v <;> simp [readBool, writeBool]

theorem readOptKey_writeOptKey {o : Option Key} (h : optKeyValid o) (rest : Bytes) :
    readOptKey (writeOptKey o ++ rest) = (o, rest) := by
  cases o with
  | none =>
    simp only [readOptKey, writeOptKey, List.cons_append, List.headD_cons]
    simp [List.drop_append_of_le_length, drop_append_len rest
      (show (List.replicate 32 (0 : Nat)).length = 32 by simp)]
  | some k =>
    simp only [readOptKey, writeOptKey, List.cons_append, List.headD_cons]
    simp [take_append_len rest h.1, drop_append_len rest h.1]

theorem readOptU64_writeOptU64 {o : Option Nat} (h : optU64Valid o) (rest : Bytes) :
    readOptU64 (writeOptU64 o ++ rest) = (o, rest) := by
  cases o with
  | none =>
    simp only [readOptU64, writeOptU64, List.cons_append, List.headD_cons]
    simp [drop_append_len rest (show (List.replicate 8 (0 : Nat)).length = 8 by simp)]
  | some n =>
    simp only [readOptU64, writeOptU64, List.cons_append, List.headD_cons]
    simp [take_append_len rest (natToLE_length 8 n),
      drop_append_len rest (natToLE_length 8 n), natFromLE_natToLE_of_lt h]

/-! Fixed-count repeated fields: runs of 32-byte keys and of portfolio asset
slots. -/

/-- Write a run of 32-byte keys back to back. -/
def writeKeys : List Key → Bytes
  | [] => []
  | k :: t => k ++ writeKeys t

/-- Read a run of `n` 32-byte keys off the front of the buffer. -/
def readKeys : Nat → Bytes → List Key × Bytes
  | 0, b => ([], b)
  | n + 1, b =>
    let r := readKeys n (b.drop 32)
    (b.take 32 :: r.1, r.2)

theorem writeKeys_length {ks : List Key} (h : ∀ k ∈ ks, isKey k) :
    (writeKeys ks).length = 32 * ks.length := by
  induction ks with
  | nil => rfl
  | cons k t ih =>
    have hk := (h k (by simp)).1
    simp [writeKeys, hk, ih (fun x hx => h x (by simp [hx]))]
    omega

theorem readKeys_writeKeys {ks : List Key} (h : ∀ k ∈ ks, isKey k) (rest : Bytes) :
    readKeys ks.length (writeKeys ks ++ rest) = (ks, rest) := by
  induction ks with
  | nil => simp [writeKeys, readKeys]
  | cons k t ih =>
    have hk := (h k (by simp)).1
    simp only [writeKeys, List.length_cons, readKeys, List.append_assoc]
    rw [drop_append_len _ hk, take_append_len _ hk,
      ih (fun x hx => h x (by simp [hx]))]

/-- One portfolio asset slot: `{amount, assetMint, period, targetAsset}`
(spec §3, Portfolio row). -/
structure AssetSlot where
  amount : Nat
  assetMint : Key
  period : Nat
  targetAsset : Key
deriving DecidableEq

/-- Validity of an asset slot: amounts fit 64 bits, keys are 32 bytes. -/
def slotValid (s : AssetSlot) : Prop :=
  s.amount < 256 ^ 8 ∧ isKey s.assetMint ∧ s.period < 256 ^ 8 ∧ isKey s.targetAsset

instance : DecidablePred slotValid := fun s =>
  inferInstanceAs (Decidable (_ ∧ _ ∧ _ ∧ _))

/-- Write one asset slot: u64 amount, 32-byte mint, u64 period, 32-byte
target asset (80 bytes). -/
def writeSlot (s : AssetSlot) : Bytes :=
  writeU64 s.amount ++ writeKey s.assetMint ++ writeU64 s.period ++ writeKey s.targetAsset

/-- Read one asset slot off the front of the buffer. -/
def readSlot (b : Bytes) : AssetSlot × Bytes :=
  let a := readU64 b
  let m := readKey a.2
  let p := readU64 m.2
  let t := readKey p.2
  (⟨a.1, m.1, p.1, t.1⟩, t.2)

theorem writeSlot_length {s : AssetSlot} (h : slotValid s) :
    (writeSlot s).length = 80 := by
  obtain ⟨h1, h2, h3, h4⟩ := h
  simp [writeSlot, writeU64, writeKey, natToLE_length, h2.1, h4.1]

theorem readSlot_writeSlot {s : AssetSlot} (h : slotValid s) (rest : Bytes) :
    readSlot (writeSlot s ++ rest) = (s, rest) := by
  obtain ⟨h1, h2, h3, h4⟩ := h
  simp only [writeSlot, List.append_assoc, readSlot,
    readU64_writeU64 h1, readKey_writeKey h2.1,
    readU64_writeU64 h3, readKey_writeKey h4.1]

/-- Write a run of asset slots back to back. -/
def writeSlots : List AssetSlot → Bytes
  | [] => []
  | s :: t => writeSlot s ++ writeSlots t

/-- Read a run of `n` asset slots off the front of the buffer. -/
def readSlots : Nat → Bytes → List AssetSlot × Bytes
  | 0, b => ([], b)
  | n + 1, b =>
    let s := readSlot b
    let r := readSlots n s.2
    (s.1 :: r.1, r.2)

theorem writeSlots_length {ss : List AssetSlot} (h : ∀ s ∈ ss, slotValid s) :
    (writeSlots ss).length = 80 * ss.length := by
  induction ss with
  | nil => rfl
  | cons s t ih =>
    simp [writeSlots, writeSlot_length (h s (by simp)),
      ih (fun x hx => h x (by simp [hx]))]
    omega

theorem readSlots_writeSlots {ss : List AssetSlot} (h : ∀ s ∈ ss, slotValid s)
    (rest : Bytes) :
    readSlots ss.length (writeSlots ss ++ rest) = (ss, rest) := by
  induction ss with
  | nil => simp [writeSlots, readSlots]
  | cons s t ih =>
    simp only [writeSlots, List.length_cons, readSlots, List.append_assoc]
    rw [readSlot_writeSlot (h s (by simp)), ih (fun x hx => h x (by simp [hx]))]

/-! ## Entity records and their layouts

Modelled from the spec: the five entity layouts of `js/client/nToken.js` /
`js/client/Portfolio.js` are absent from `src/`; fields and widths follow the
spec's Data Model table (§3) in declaration order, under the §4.1 encoding
discipline.  `decode` fails with a `LayoutError` exactly on an undersized
buffer and otherwise reinterprets the bytes without validating field meaning
(the Token Account `state` byte is kept raw, not forced into enum range). -/

/-- Decode failure: the buffer is shorter than the entity's fixed span. -/
inductive LayoutError where
  | undersized
deriving DecidableEq

/-- Mint record (spec §3). -/
structure Mint where
  mintAuthority : Option Key
  supply : Nat
  decimals : Nat
  isInitialized : Bool
  freezeAuthority : Option Key
deriving DecidableEq

/-- A valid Mint: in-range numerics, well-formed optional keys. -/
def validMint (r : Mint) : Prop :=
  optKeyValid r.mintAuthority ∧ r.supply < 256 ^ 8 ∧ r.decimals < 256 ∧
    optKeyValid r.freezeAuthority

instance : DecidablePred validMint := fun r =>
  inferInstanceAs (Decidable (_ ∧ _ ∧ _ ∧ _))

/-- Fixed span of an encoded Mint: 33 + 8 + 1 + 1 + 33. -/
def mintSpan : Nat := 76

/-- Encode a Mint at its fixed offsets. -/
def encodeMint (r : Mint) : Bytes :=
  writeOptKey r.mintAuthority ++ writeU64 r.supply ++ writeU8 r.decimals ++
    writeBool r.isInitialized ++ writeOptKey r.freezeAuthority

/-- Decode a Mint: undersized buffers fail, well-sized buffers are
reinterpreted field by field. -/
def decodeMint (b : Bytes) : Except LayoutError Mint :=
  if b.length < mintSpan then .error .undersized
  else
    let s0 := readOptKey b
    let s1 := readU64 s0.2
    let s2 := readU8 s1.2
    let s3 := readBool s2.2
    let s4 := readOptKey s3.2
    .ok { mintAuthority := s0.1, supply := s1.1, decimals := s2.1,
          isInitialized := s3.1, freezeAuthority := s4.1 }

theorem encodeMint_length {r : Mint} (h : validMint r) :
    (encodeMint r).length = mintSpan := by
  obtain ⟨h1, h2, h3, h4⟩ := h
  simp [encodeMint, writeOptKey_length h1, writeOptKey_length h4,
    writeU64, writeU8, natToLE_length, writeBool_length, mintSpan]

theorem decodeMint_encodeMint {r : Mint} (h : validMint r) :
    decodeMint (encodeMint r) = .ok r := by
  rw [decodeMint, if_neg (by rw [encodeMint_length h]; omega)]
  obtain ⟨h1, h2, h3, h4⟩ := h
  rw [show encodeMint r = encodeMint r ++ [] by rw [List.append_nil]]
  simp only [encodeMint, List.append_assoc, readOptKey_writeOptKey h1,
    readU64_writeU64 h2, readU8_writeU8 h3, readBool_writeBool,
    readOptKey_writeOptKey h4]

/-- Token Account record (spec §3).  The `state` field is kept as the raw
byte: enum-range meaning is validated by the program, not the codec. -/
structure TokenAccount where
  mint : Key
  owner : Key
  amount : Nat
  delegate : Option Key
  state : Nat
  isNative : Option Nat
  delegatedAmount : Nat
  closeAuthority : Option Key
deriving DecidableEq

/-- A valid Token Account record. -/
def validTokenAccount (r : TokenAccount) : Prop :=
  isKey r.mint ∧ isKey r.owner ∧ r.amount < 256 ^ 8 ∧ optKeyValid r.delegate ∧
    r.state < 256 ∧ optU64Valid r.isNative ∧ r.delegatedAmount < 256 ^ 8 ∧
    optKeyValid r.closeAuthority

instance : DecidablePred validTokenAccount := fun r =>
  inferInstanceAs (Decidable (_ ∧ _ ∧ _ ∧ _ ∧ _ ∧ _ ∧ _ ∧ _))

/-- Fixed span of an encoded Token Account: 32 + 32 + 8 + 33 + 1 + 9 + 8 + 33. -/
def accountSpan : Nat := 156

/-- Encode a Token Account at its fixed offsets. -/
def encodeTokenAccount (r : TokenAccount) : Bytes :=
  writeKey r.mint ++ writeKey r.owner ++ writeU64 r.amount ++
    writeOptKey r.delegate ++ writeU8 r.state ++ writeOptU64 r.isNative ++
    writeU64 r.delegatedAmount ++ writeOptKey r.closeAuthority

/-- Decode a Token Account. -/
def decodeTokenAccount (b : Bytes) : Except LayoutError TokenAccount :=
  if b.length < accountSpan then .error .undersized
  else
    let s0 := readKey b
    let s1 := readKey s0.2
    let s2 := readU64 s1.2
    let s3 := readOptKey s2.2
    let s4 := readU8 s3.2
    let s5 := readOptU64 s4.2
    let s6 := readU64 s5.2
    let s7 := readOptKey s6.2
    .ok { mint := s0.1, owner := s1.1, amount := s2.1, delegate := s3.1,
          state := s4.1, isNative := s5.1, delegatedAmount := s6.1,
          closeAuthority := s7.1 }

theorem encodeTokenAccount_length {r : TokenAccount} (h : validTokenAccount r) :
    (encodeTokenAccount r).length = accountSpan := by
  obtain ⟨h1, h2, h3, h4, h5, h6, h7, h8⟩ := h
  simp [encodeTokenAccount, writeKey, h1.1, h2.1, writeOptKey_length h4,
    writeOptKey_length h8, writeOptU64_length, writeU64, writeU8,
    natToLE_length, accountSpan]

theorem decodeTokenAccount_encodeTokenAccount {r : TokenAccount}
    (h : validTokenAccount r) :
    decodeTokenAccount (encodeTokenAccount r) = .ok r := by
  rw [decodeTokenAccount, if_neg (by rw [encodeTokenAccount_length h]; omega)]
  obtain ⟨h1, h2, h3, h4, h5, h6, h7, h8⟩ := h
  rw [show encodeTokenAccount r = encodeTokenAccount r ++ [] by rw [List.append_nil]]
  simp only [encodeTokenAccount, List.append_assoc, readKey_writeKey h1.1,
    readKey_writeKey h2.1, readU64_writeU64 h3, readOptKey_writeOptKey h4,
    readU8_writeU8 h5, readOptU64_writeOptU64 h6, readU64_writeU64 h7,
    readOptKey_writeOptKey h8]

/-- Multisig record (spec §3): threshold `m`, signer count `n`, and 11 fixed
32-byte signer slots (only the first `n` meaningful). -/
structure Multisig where
  m : Nat
  n : Nat
  isInitialized : Bool
  signers : List Key
deriving DecidableEq

/-- A valid Multisig record: byte-range counters and 11 well-formed slots. -/
def validMultisig (r : Multisig) : Prop :=
  r.m < 256 ∧ r.n < 256 ∧ r.signers.length = 11 ∧ ∀ k ∈ r.signers, isKey k

instance : DecidablePred validMultisig := fun r =>
  inferInstanceAs (Decidable (_ ∧ _ ∧ _ ∧ _))

/-- Fixed span of an encoded Multisig: 1 + 1 + 1 + 11 * 32. -/
def multisigSpan : Nat := 355

/-- Encode a Multisig at its fixed offsets. -/
def encodeMultisig (r : Multisig) : Bytes :=
  writeU8 r.m ++ writeU8 r.n ++ writeBool r.isInitialized ++ writeKeys r.signers

/-- Decode a Multisig. -/
def decodeMultisig (b : Bytes) : Except LayoutError Multisig :=
  if b.length < multisigSpan then .error .undersized
  else
    let s0 := readU8 b
    let s1 := readU8 s0.2
    let s2 := readBool s1.2
    let s3 := readKeys 11 s2.2
    .ok { m := s0.1, n := s1.1, isInitialized := s2.1, signers := s3.1 }

theorem encodeMultisig_length {r : Multisig} (h : validMultisig r) :
    (encodeMultisig r).length = multisigSpan := by
  obtain ⟨h1, h2, h3, h4⟩ := h
  simp [encodeMultisig, writeU8, natToLE_length, writeBool_length,
    writeKeys_length h4, h3, multisigSpan]

theorem decodeMultisig_encodeMultisig {r : Multisig} (h : validMultisig r) :
    decodeMultisig (encodeMultisig r) = .ok r := by
  rw [decodeMultisig, if_neg (by rw [encodeMultisig_length h]; omega)]
  obtain ⟨h1, h2, h3, h4⟩ := h
  rw [show encodeMultisig r = encodeMultisig r ++ [] by rw [List.append_nil]]
  simp only [encodeMultisig, List.append_assoc, readU8_writeU8 h1,
    readU8_writeU8 h2, readBool_writeBool]
  rw [show (11 : Nat) = r.signers.length by omega, readKeys_writeKeys h4]

/-- Fixed byte width of the portfolio metadata-url region. -/
def metadataUrlSpan : Nat := 128

/-- Portfolio record (spec §3): owner, fixed-size metadata-url buffer,
fixed-width metadata hash, and 9 asset slots. -/
structure Portfolio where
  owner : Key
  metadataUrl : Bytes
  metadataHash : Nat
  assets : List AssetSlot
deriving DecidableEq

/-- A valid Portfolio record. -/
def validPortfolio (r : Portfolio) : Prop :=
  isKey r.owner ∧ (r.metadataUrl.length = metadataUrlSpan ∧ isBytes r.metadataUrl) ∧
    r.metadataHash < 256 ^ 2 ∧ (r.assets.length = 9 ∧ ∀ s ∈ r.assets, slotValid s)

instance : DecidablePred validPortfolio := fun r =>
  inferInstanceAs (Decidable (_ ∧ _ ∧ _ ∧ _))

/-- Fixed span of an encoded Portfolio: 32 + 128 + 2 + 9 * 80. -/
def portfolioSpan : Nat := 882

/-- Encode a Portfolio at its fixed offsets. -/
def encodePortfolio (r : Portfolio) : Bytes :=
  writeKey r.owner ++ r.metadataUrl ++ writeU16 r.metadataHash ++
    writeSlots r.assets

/-- Decode a Portfolio. -/
def decodePortfolio (b : Bytes) : Except LayoutError Portfolio :=
  if b.length < portfolioSpan then .error .undersized
  else
    let s0 := readKey b
    let s1 := (s0.2.take metadataUrlSpan, s0.2.drop metadataUrlSpan)
    let s2 := readU16 s1.2
    let s3 := readSlots 9 s2.2
    .ok { owner := s0.1, metadataUrl := s1.1, metadataHash := s2.1,
          assets := s3.1 }

theorem encodePortfolio_length {r : Portfolio} (h : validPortfolio r) :
    (encodePortfolio r).length = portfolioSpan := by
  obtain ⟨h1, h2, h3, h4⟩ := h
  simp [encodePortfolio, writeKey, h1.1, h2.1, writeU16, natToLE_length,
    writeSlots_length h4.2, h4.1, portfolioSpan, metadataUrlSpan]

theorem decodePortfolio_encodePortfolio {r : Portfolio} (h : validPortfolio r) :
    decodePortfolio (encodePortfolio r) = .ok r := by
  rw [decodePortfolio, if_neg (by rw [encodePortfolio_length h]; omega)]
  obtain ⟨h1, h2, h3, h4⟩ := h
  rw [show encodePortfolio r = encodePortfolio r ++ [] by rw [List.append_nil]]
  simp only [encodePortfolio, List.append_assoc, readKey_writeKey h1.1]
  rw [take_append_len _ h2.1, drop_append_len _ h2.1]
  simp only [readU16_writeU16 h3]
  rw [show (9 : Nat) = r.assets.length by omega, readSlots_writeSlots h4.2]

/-- UserPortfolio record (spec §3): back-reference to the portfolio, the
user-portfolio address, optional delegate, delegated amount, and 9 per-user
asset token-account references. -/
structure UserPortfolio where
  portfolioAddress : Key
  userPortfolioAddress : Key
  delegate : Option Key
  delegatedAmount : Nat
  assetRefs : List Key
deriving DecidableEq

/-- A valid UserPortfolio record. -/
def validUserPortfolio (r : UserPortfolio) : Prop :=
  isKey r.portfolioAddress ∧ isKey r.userPortfolioAddress ∧
    optKeyValid r.delegate ∧ r.delegatedAmount < 256 ^ 8 ∧
    (r.assetRefs.length = 9 ∧ ∀ k ∈ r.assetRefs, isKey k)

instance : DecidablePred validUserPortfolio := fun r =>
  inferInstanceAs (Decidable (_ ∧ _ ∧ _ ∧ _ ∧ _))

/-- Fixed span of an encoded UserPortfolio: 32 + 32 + 33 + 8 + 9 * 32. -/
def userPortfolioSpan : Nat := 393

/-- Encode a UserPortfolio at its fixed offsets. -/
def encodeUserPortfolio (r : UserPortfolio) : Bytes :=
  writeKey r.portfolioAddress ++ writeKey r.userPortfolioAddress ++
    writeOptKey r.delegate ++ writeU64 r.delegatedAmount ++ writeKeys r.assetRefs

/-- Decode a UserPortfolio. -/
def decodeUserPortfolio (b : Bytes) : Except LayoutError UserPortfolio :=
  if b.length < userPortfolioSpan then .error .undersized
  else
    let s0 := readKey b
    let s1 := readKey s0.2
    let s2 := readOptKey s1.2
    let s3 := readU64 s2.2
    let s4 := readKeys 9 s3.2
    .ok { portfolioAddress := s0.1, userPortfolioAddress := s1.1,
          delegate := s2.1, delegatedAmount := s3.1, assetRefs := s4.1 }

theorem encodeUserPortfolio_length {r : UserPortfolio} (h : validUserPortfolio r) :
    (encodeUserPortfolio r).length = userPortfolioSpan := by
  obtain ⟨h1, h2, h3, h4, h5⟩ := h
  simp [encodeUserPortfolio, writeKey, h1.1, h2.1, writeOptKey_length h3,
    writeU64, natToLE_length, writeKeys_length h5.2, h5.1, userPortfolioSpan]

theorem decodeUserPortfolio_encodeUserPortfolio {r : UserPortfolio}
    (h : validUserPortfolio r) :
    decodeUserPortfolio (encodeUserPortfolio r) = .ok r := by
  rw [decodeUserPortfolio, if_neg (by rw [encodeUserPortfolio_length h]; omega)]
  obtain ⟨h1, h2, h3, h4, h5⟩ := h
  rw [show encodeUserPortfolio r = encodeUserPortfolio r ++ [] by rw [List.append_nil]]
  simp only [encodeUserPortfolio, List.append_assoc, readKey_writeKey h1.1,
    readKey_writeKey h2.1, readOptKey_writeOptKey h3, readU64_writeU64 h4]
  rw [show (9 : Nat) = r.assetRefs.length by omega, readKeys_writeKeys h5.2]

/-! ## Concrete records used as evaluation points. -/

/-- A concrete well-formed 32-byte key. -/
def exKeyA : Key := List.replicate 32 7

/-- A second concrete well-formed 32-byte key, distinct from `exKeyA`. -/
def exKeyB : Key := 1 :: List.replicate 31 9

/-- A concrete valid Mint record. -/
def exMint : Mint :=
  { mintAuthority := some exKeyA, supply := 123456789, decimals := 9,
    isInitialized := true, freezeAuthority := none }

/-- A concrete valid Token Account record. -/
def exTokenAccount : TokenAccount :=
  { mint := exKeyA, owner := exKeyB, amount := 1000, delegate := some exKeyA,
    state := 1, isNative := none, delegatedAmount := 2, closeAuthority := none }

/-- A concrete valid Multisig record. -/
def exMultisig : Multisig :=
  { m := 2, n := 5, isInitialized := true, signers := List.replicate 11 exKeyA }

/-- A concrete valid asset slot. -/
def exSlot : AssetSlot :=
  { amount := 2, assetMint := exKeyA, period := 123, targetAsset := exKeyB }

/-- A concrete valid Portfolio record. -/
def exPortfolio : Portfolio :=
  { owner := exKeyA, metadataUrl := List.replicate metadataUrlSpan 97,
    metadataHash := 789, assets := List.replicate 9 exSlot }

/-- A concrete valid UserPortfolio record. -/
def exUserPortfolio : UserPortfolio :=
  { portfolioAddress := exKeyA, userPortfolioAddress := exKeyB,
    delegate := some exKeyA, delegatedAmount := 5,
    assetRefs := List.replicate 9 exKeyB }

/-- C1: for every valid record of each entity type, decoding the encoding
yields the record back (`decode(encode(r)) = r`), where the encoding is the
fixed-offset, fixed-length byte layout. -/
theorem claim_C1_codec_roundtrip :
    (∀ r : Mint, validMint r → decodeMint (encodeMint r) = .ok r) ∧
    (∀ r : TokenAccount, validTokenAccount r →
      decodeTokenAccount (encodeTokenAccount r) = .ok r) ∧
    (∀ r : Multisig, validMultisig r → decodeMultisig (encodeMultisig r) = .ok r) ∧
    (∀ r : Portfolio, validPortfolio r →
      decodePortfolio (encodePortfolio r) = .ok r) ∧
    (∀ r : UserPortfolio, validUserPortfolio r →
      decodeUserPortfolio (encodeUserPortfolio r) = .ok r) :=
  ⟨fun _ h => decodeMint_encodeMint h,
   fun _ h => decodeTokenAccount_encodeTokenAccount h,
   fun _ h => decodeMultisig_encodeMultisig h,
   fun _ h => decodePortfolio_encodePortfolio h,
   fun _ h => decodeUserPortfolio_encodeUserPortfolio h⟩

/-- Witness for C1: the round trip evaluated at one concrete valid record of
each entity type. -/
theorem claim_C1_codec_roundtrip_witness :
    decodeMint (encodeMint exMint) = .ok exMint ∧
    decodeTokenAccount (encodeTokenAccount exTokenAccount) = .ok exTokenAccount ∧
    decodeMultisig (encodeMultisig exMultisig) = .ok exMultisig ∧
    decodePortfolio (encodePortfolio exPortfolio) = .ok exPortfolio ∧
    decodeUserPortfolio (encodeUserPortfolio exUserPortfolio) = .ok exUserPortfolio :=
  ⟨claim_C1_codec_roundtrip.1 exMint (by decide),
   claim_C1_codec_roundtrip.2.1 exTokenAccount (by decide),
   claim_C1_codec_roundtrip.2.2.1 exMultisig (by decide),
   claim_C1_codec_roundtrip.2.2.2.1 exPortfolio (by decide),
   claim_C1_codec_roundtrip.2.2.2.2 exUserPortfolio (by decide)⟩

/-- C2: for every entity type, decoding any buffer shorter than the required
fixed span fails with a `LayoutError` (no partially-populated record can be
returned — the decoder's only outcomes are a layout error or a complete
record), and decoding any buffer of exactly the required span never fails. -/
theorem claim_C2_decode_totality :
    (∀ b : Bytes,
      (b.length < mintSpan → decodeMint b = .error .undersized) ∧
      (b.length = mintSpan → ∃ r, decodeMint b = .ok r)) ∧
    (∀ b : Bytes,
      (b.length < accountSpan → decodeTokenAccount b = .error .undersized) ∧
      (b.length = accountSpan → ∃ r, decodeTokenAccount b = .ok r)) ∧
    (∀ b : Bytes,
      (b.length < multisigSpan → decodeMultisig b = .error .undersized) ∧
      (b.length = multisigSpan → ∃ r, decodeMultisig b = .ok r)) ∧
    (∀ b : Bytes,
      (b.length < portfolioSpan → decodePortfolio b = .error .undersized) ∧
      (b.length = portfolioSpan → ∃ r, decodePortfolio b = .ok r)) ∧
    (∀ b : Bytes,
      (b.length < userPortfolioSpan → decodeUserPortfolio b = .error .undersized) ∧
      (b.length = userPortfolioSpan → ∃ r, decodeUserPortfolio b = .ok r)) := by
  refine ⟨fun b => ⟨fun h => ?_, fun h => ?_⟩, fun b => ⟨fun h => ?_, fun h => ?_⟩,
    fun b => ⟨fun h => ?_, fun h => ?_⟩, fun b => ⟨fun h => ?_, fun h => ?_⟩,
    fun b => ⟨fun h => ?_, fun h => ?_⟩⟩
  · rw [decodeMint, if_pos h]
  · exact ⟨_, by rw [decodeMint, if_neg (by omega)]⟩
  · rw [decodeTokenAccount, if_pos h]
  · exact ⟨_, by rw [decodeTokenAccount, if_neg (by omega)]⟩
  · rw [decodeMultisig, if_pos h]
  · exact ⟨_, by rw [decodeMultisig, if_neg (by omega)]⟩
  · rw [decodePortfolio, if_pos h]
  · exact ⟨_, by rw [decodePortfolio, if_neg (by omega)]⟩
  · rw [decodeUserPortfolio, if_pos h]
  · exact ⟨_, by rw [decodeUserPortfolio, if_neg (by omega)]⟩

/-- Witness for C2: each decoder evaluated at the empty buffer (undersized)
and at an all-zero buffer of exactly the required span. -/
theorem claim_C2_decode_totality_witness :
    decodeMint [] = .error .undersized ∧
    (∃ r, decodeMint (List.replicate mintSpan 0) = .ok r) ∧
    decodeTokenAccount [] = .error .undersized ∧
    (∃ r, decodeTokenAccount (List.replicate accountSpan 0) = .ok r) ∧
    decodeMultisig [] = .error .undersized ∧
    (∃ r, decodeMultisig (List.replicate multisigSpan 0) = .ok r) ∧
    decodePortfolio [] = .error .undersized ∧
    (∃ r, decodePortfolio (List.replicate portfolioSpan 0) = .ok r) ∧
    decodeUserPortfolio [] = .error .undersized ∧
    (∃ r, decodeUserPortfolio (List.replicate userPortfolioSpan 0) = .ok r) :=
  ⟨(claim_C2_decode_totality.1 []).1 (by decide),
   (claim_C2_decode_totality.1 _).2 (by simp),
   (claim_C2_decode_totality.2.1 []).1 (by decide),
   (claim_C2_decode_totality.2.1 _).2 (by simp),
   (claim_C2_decode_totality.2.2.1 []).1 (by decide),
   (claim_C2_decode_totality.2.2.1 _).2 (by simp),
   (claim_C2_decode_totality.2.2.2.1 []).1 (by decide),
   (claim_C2_decode_totality.2.2.2.1 _).2 (by simp),
   (claim_C2_decode_totality.2.2.2.2 []).1 (by decide),
   (claim_C2_decode_totality.2.2.2.2 _).2 (by simp)⟩

/-! ## Instruction builders

Modelled from the spec: the instruction builders of `js/client/nToken.js` are
absent from `src/` (only their test callers are present).  Per spec §4.2 a
builder is a pure function producing `{programId, accounts, data}` with the
documented positional account ordering; it fails with an `ArgumentError` only
on locally-checkable contract violations — a malformed (wrong byte-count) key,
or, for the checked variants, a `decimals` argument outside 0..9. -/

/-- One entry of an instruction's ordered account list. -/
structure AccountMeta where
  pubkey : Key
  isSigner : Bool
  isWritable : Bool
deriving DecidableEq

/-- A built instruction: program id, ordered account list, opaque payload. -/
structure Instruction where
  programId : Key
  keys : List AccountMeta
  data : Bytes
deriving DecidableEq

/-- Builder-local contract violation. -/
inductive ArgumentError where
  | malformedKey
  | decimalsOutOfRange
deriving DecidableEq

/-- Boolean well-formedness of a 32-byte key. -/
def isKeyB (k : Key) : Bool := k.length == 32 && k.all (· < 256)

theorem isKeyB_iff (k : Key) : isKeyB k = true ↔ isKey k := by
  simp [isKeyB, isKey, isBytes, List.all_eq_true]

/-- The owner/authority position followed by the multisig co-signers: with no
co-signers the owner itself signs; otherwise the co-signers sign in order. -/
def signerMetas (owner : Key) (multiSigners : List Key) : List AccountMeta :=
  match multiSigners with
  | [] => [⟨owner, true, false⟩]
  | ms => ⟨owner, false, false⟩ :: ms.map (fun k => ⟨k, true, false⟩)

/-- The system program's 32-byte id (all zero bytes). -/
def systemProgramId : Key := List.replicate 32 0

/-- Stand-in 32-byte id for the rent sysvar account. -/
def rentSysvarId : Key := natToLE 32 6

/-- TransferChecked builder: accounts `source, mint, destination,
owner/delegate, co-signers…`; payload discriminant 12 then u64 amount and u8
decimals. -/
def createTransferCheckedInstruction (programId source mint destination owner : Key)
    (multiSigners : List Key) (amount decimals : Nat) :
    Except ArgumentError Instruction :=
  if ¬((programId :: source :: mint :: destination :: owner ::
      multiSigners).all isKeyB = true) then .error .malformedKey
  else if 9 < decimals then .error .decimalsOutOfRange
  else .ok
    { programId := programId,
      keys := ⟨source, false, true⟩ :: ⟨mint, false, false⟩ ::
        ⟨destination, false, true⟩ :: signerMetas owner multiSigners,
      data := 12 :: (writeU64 amount ++ writeU8 decimals) }

/-- MintToChecked builder: accounts `mint, destination, authority,
co-signers…`; payload discriminant 14 then u64 amount and u8 decimals. -/
def createMintToCheckedInstruction (programId mint destination authority : Key)
    (multiSigners : List Key) (amount decimals : Nat) :
    Except ArgumentError Instruction :=
  if ¬((programId :: mint :: destination :: authority ::
      multiSigners).all isKeyB = true) then .error .malformedKey
  else if 9 < decimals then .error .decimalsOutOfRange
  else .ok
    { programId := programId,
      keys := ⟨mint, false, true⟩ :: ⟨destination, false, true⟩ ::
        signerMetas authority multiSigners,
      data := 14 :: (writeU64 amount ++ writeU8 decimals) }

/-- BurnChecked builder: accounts `account, mint, owner, co-signers…`;
payload discriminant 15 then u64 amount and u8 decimals. -/
def createBurnCheckedInstruction (programId account mint owner : Key)
    (multiSigners : List Key) (amount decimals : Nat) :
    Except ArgumentError Instruction :=
  if ¬((programId :: account :: mint :: owner ::
      multiSigners).all isKeyB = true) then .error .malformedKey
  else if 9 < decimals then .error .decimalsOutOfRange
  else .ok
    { programId := programId,
      keys := ⟨account, false, true⟩ :: ⟨mint, false, true⟩ ::
        signerMetas owner multiSigners,
      data := 15 :: (writeU64 amount ++ writeU8 decimals) }

/-- Create-associated-token-account builder: seven accounts — funding payer,
the associated account, its owner, the mint, the system program, the token
program and the rent sysvar — dispatched to the associated-token program with
an empty payload. -/
def createAssociatedTokenAccountInstruction
    (associatedProgramId programId mint associatedAccount owner payer : Key) :
    Except ArgumentError Instruction :=
  if ¬(([associatedProgramId, programId, mint, associatedAccount, owner,
      payer]).all isKeyB = true) then .error .malformedKey
  else .ok
    { programId := associatedProgramId,
      keys := [⟨payer, true, true⟩, ⟨associatedAccount, false, true⟩,
        ⟨owner, false, false⟩, ⟨mint, false, false⟩,
        ⟨systemProgramId, false, false⟩, ⟨programId, false, false⟩,
        ⟨rentSysvarId, false, false⟩],
      data := [] }

/-- C3: with an empty multisig co-signer list and well-formed keys, the
TransferChecked builder yields exactly the four accounts `source, mint,
destination, owner`, in that order, and carries the supplied token program
id. -/
theorem claim_C3_transferChecked_accounts
    (programId source mint destination owner : Key) (amount decimals : Nat)
    (hp : isKey programId) (hs : isKey source) (hm : isKey mint)
    (hd : isKey destination) (ho : isKey owner) (hdec : decimals ≤ 9) :
    ∃ ix, createTransferCheckedInstruction programId source mint destination
        owner [] amount decimals = .ok ix ∧
      ix.programId = programId ∧
      ix.keys.map AccountMeta.pubkey = [source, mint, destination, owner] ∧
      ix.keys.length = 4 := by
  have hall : (programId :: source :: mint :: destination :: owner ::
      ([] : List Key)).all isKeyB = true := by
    simp [isKeyB_iff, hp, hs, hm, hd, ho]
  have heq : createTransferCheckedInstruction programId source mint destination
      owner [] amount decimals = .ok
        { programId := programId,
          keys := [⟨source, false, true⟩, ⟨mint, false, false⟩,
            ⟨destination, false, true⟩, ⟨owner, true, false⟩],
          data := 12 :: (writeU64 amount ++ writeU8 decimals) } := by
    rw [createTransferCheckedInstruction, if_neg (not_not_intro hall),
      if_neg (by omega)]
    rfl
  exact ⟨_, heq, rfl, rfl, rfl⟩

/-- Witness for C3: the builder evaluated at concrete keys. -/
theorem claim_C3_transferChecked_accounts_witness :
    ∃ ix, createTransferCheckedInstruction exKeyA exKeyA exKeyB exKeyA
        exKeyB [] 1 9 = .ok ix ∧
      ix.programId = exKeyA ∧
      ix.keys.map AccountMeta.pubkey = [exKeyA, exKeyB, exKeyA, exKeyB] ∧
      ix.keys.length = 4 :=
  claim_C3_transferChecked_accounts exKeyA exKeyA exKeyB exKeyA exKeyB 1 9
    (by decide) (by decide) (by decide) (by decide) (by decide) (by decide)

/-- C4: with well-formed keys, the create-associated-token-account builder
yields exactly seven accounts and carries the associated-token program id,
not the token program id. -/
theorem claim_C4_associated_accounts
    (associatedProgramId programId mint associatedAccount owner payer : Key)
    (ha : isKey associatedProgramId) (hp : isKey programId) (hm : isKey mint)
    (hc : isKey associatedAccount) (ho : isKey owner) (hy : isKey payer) :
    ∃ ix, createAssociatedTokenAccountInstruction associatedProgramId programId
        mint associatedAccount owner payer = .ok ix ∧
      ix.programId = associatedProgramId ∧
      ix.keys.length = 7 ∧
      (associatedProgramId ≠ programId → ix.programId ≠ programId) := by
  have hall : ([associatedProgramId, programId, mint, associatedAccount, owner,
      payer]).all isKeyB = true := by
    simp [isKeyB_iff, ha, hp, hm, hc, ho, hy]
  have heq : createAssociatedTokenAccountInstruction associatedProgramId
      programId mint associatedAccount owner payer = .ok
        { programId := associatedProgramId,
          keys := [⟨payer, true, true⟩, ⟨associatedAccount, false, true⟩,
            ⟨owner, false, false⟩, ⟨mint, false, false⟩,
            ⟨systemProgramId, false, false⟩, ⟨programId, false, false⟩,
            ⟨rentSysvarId, false, false⟩],
          data := [] } := by
    rw [createAssociatedTokenAccountInstruction, if_neg (not_not_intro hall)]
  exact ⟨_, heq, rfl, rfl, fun h => h⟩

/-- Witness for C4: the builder evaluated at concrete keys, with the
associated-token program id distinct from the token program id. -/
theorem claim_C4_associated_accounts_witness :
    ∃ ix, createAssociatedTokenAccountInstruction exKeyA exKeyB exKeyA exKeyB
        exKeyA exKeyB = .ok ix ∧
      ix.programId = exKeyA ∧
      ix.keys.length = 7 ∧
      (exKeyA ≠ exKeyB → ix.programId ≠ exKeyB) :=
  claim_C4_associated_accounts exKeyA exKeyB exKeyA exKeyB exKeyA exKeyB
    (by decide) (by decide) (by decide) (by decide) (by decide) (by decide)

/-- A checked builder's locally-checkable contract violation: some supplied
key is malformed, or the decimals argument lies outside 0..9. -/
def checkedViolation (suppliedKeys : List Key) (decimals : Nat) : Prop :=
  (∃ k ∈ suppliedKeys, ¬ isKey k) ∨ 9 < decimals

/-- The common guard shape of the checked builders: success exactly when every
supplied key is well-formed and decimals is in 0..9. -/
theorem checkedGuard_ok_iff (ks : List Key) (decimals : Nat)
    (e₁ e₂ : ArgumentError) (v : Instruction) :
    (∃ ix, (if ¬(ks.all isKeyB = true) then Except.error e₁
            else if 9 < decimals then Except.error e₂
            else Except.ok v) = Except.ok ix) ↔
      ¬ checkedViolation ks decimals := by
  have hks : (ks.all isKeyB = true) ↔ ∀ k ∈ ks, isKey k := by
    simp [List.all_eq_true, isKeyB_iff]
  simp only [checkedViolation, not_or, not_exists, not_lt]
  constructor
  · rintro ⟨ix, hix⟩
    split_ifs at hix with h1 h2
    exact ⟨fun k hc => hc.2 (hks.mp h1 k hc.1), by omega⟩
  · rintro ⟨hkeys, hdec⟩
    rw [if_neg (not_not_intro (hks.mpr
        (fun k hk => not_not.mp (fun hnk => hkeys k ⟨hk, hnk⟩)))),
      if_neg (by omega)]
    exact ⟨v, rfl⟩

/-- The guard shape of the key-only builders: success exactly when every
supplied key is well-formed. -/
theorem keyGuard_ok_iff (ks : List Key) (e : ArgumentError) (v : Instruction) :
    (∃ ix, (if ¬(ks.all isKeyB = true) then Except.error e
            else Except.ok v) = Except.ok ix) ↔
      ¬ ∃ k ∈ ks, ¬ isKey k := by
  have hks : (ks.all isKeyB = true) ↔ ∀ k ∈ ks, isKey k := by
    simp [List.all_eq_true, isKeyB_iff]
  simp only [not_exists]
  constructor
  · rintro ⟨ix, hix⟩
    split_ifs at hix with h1
    exact fun k hc => hc.2 (hks.mp h1 k hc.1)
  · intro hkeys
    rw [if_neg (not_not_intro (hks.mpr
        (fun k hk => not_not.mp (fun hnk => hkeys k ⟨hk, hnk⟩))))]
    exact ⟨v, rfl⟩

/-- C6: the modelled builders are pure Lean functions (hence perform no I/O),
and each call succeeds precisely when no locally-checkable contract violation
is present: a checked builder returns an instruction iff every supplied key is
well-formed and `decimals ≤ 9`, and the associated-account builder returns an
instruction iff every supplied key is well-formed. -/
theorem claim_C6_builder_errors :
    (∀ programId source mint destination owner multiSigners amount decimals,
      (∃ ix, createTransferCheckedInstruction programId source mint destination
        owner multiSigners amount decimals = .ok ix) ↔
      ¬ checkedViolation (programId :: source :: mint :: destination :: owner ::
        multiSigners) decimals) ∧
    (∀ programId mint destination authority multiSigners amount decimals,
      (∃ ix, createMintToCheckedInstruction programId mint destination authority
        multiSigners amount decimals = .ok ix) ↔
      ¬ checkedViolation (programId :: mint :: destination :: authority ::
        multiSigners) decimals) ∧
    (∀ programId account mint owner multiSigners amount decimals,
      (∃ ix, createBurnCheckedInstruction programId account mint owner
        multiSigners amount decimals = .ok ix) ↔
      ¬ checkedViolation (programId :: account :: mint :: owner ::
        multiSigners) decimals) ∧
    (∀ associatedProgramId programId mint associatedAccount owner payer,
      (∃ ix, createAssociatedTokenAccountInstruction associatedProgramId
        programId mint associatedAccount owner payer = .ok ix) ↔
      ¬ ∃ k ∈ [associatedProgramId, programId, mint, associatedAccount, owner,
        payer], ¬ isKey k) :=
  ⟨fun p s m d o ms a dec => checkedGuard_ok_iff _ dec _ _ _,
   fun p m d au ms a dec => checkedGuard_ok_iff _ dec _ _ _,
   fun p ac m o ms a dec => checkedGuard_ok_iff _ dec _ _ _,
   fun ap p m c o py => keyGuard_ok_iff _ _ _⟩

/-! ## Associated-address derivation

Modelled from the spec: `getAssociatedTokenAddress` of `js/client/nToken.js`
is absent from `src/`; per spec §4.3 it is the program-derived-address scheme —
SHA-256 of the seeds `[owner, tokenProgramId, mint]` plus a bump byte, the
associated program id and a domain-separation tag, searching bump bytes
downward from 255 until the digest lands off the ed25519 curve.  SHA-256 and
the off-curve test are modelled in full so the derivation is executable. -/

/-- 32-bit mask. -/
def mask32 : Nat := 4294967295

/-- Addition modulo 2³². -/
def add32 (a b : Nat) : Nat := (a + b) &&& mask32

/-- Right rotation of a 32-bit word. -/
def rotr (n x : Nat) : Nat := ((x >>> n) ||| (x <<< (32 - n))) &&& mask32

/-- Bitwise complement of a 32-bit word. -/
def notw (x : Nat) : Nat := x ^^^ mask32

/-- SHA-256 small sigma-0. -/
def shaSigma0 (x : Nat) : Nat := rotr 7 x ^^^ rotr 18 x ^^^ (x >>> 3)

/-- SHA-256 small sigma-1. -/
def shaSigma1 (x : Nat) : Nat := rotr 17 x ^^^ rotr 19 x ^^^ (x >>> 10)

/-- SHA-256 big sigma-0. -/
def shaBigSigma0 (x : Nat) : Nat := rotr 2 x ^^^ rotr 13 x ^^^ rotr 22 x

/-- SHA-256 big sigma-1. -/
def shaBigSigma1 (x : Nat) : Nat := rotr 6 x ^^^ rotr 11 x ^^^ rotr 25 x

/-- SHA-256 choose function. -/
def shaCh (x y z : Nat) : Nat := (x &&& y) ^^^ (notw x &&& z)

/-- SHA-256 majority function. -/
def shaMaj (x y z : Nat) : Nat := (x &&& y) ^^^ (x &&& z) ^^^ (y &&& z)

/-- The 64 SHA-256 round constants (FIPS 180-2, in decimal). -/
def shaK : List Nat :=
  [1116352408, 1899447441, 3049323471, 3921009573, 961987163, 1508970993,
   2453635748, 2870763221, 3624381080, 310598401, 607225278, 1426881987,
   1925078388, 2162078206, 2614888103, 3248222580, 3835390401, 4022224774,
   264347078, 604807628, 770255983, 1249150122, 1555081692, 1996064986,
   2554220882, 2821834349, 2952996808, 3210313671, 3336571891, 3584528711,
   113926993, 338241895, 666307205, 773529912, 1294757372, 1396182291,
   1695183700, 1986661051, 2177026350, 2456956037, 2730485921, 2820302411,
   3259730800, 3345764771, 3516065817, 3600352804, 4094571909, 275423344,
   430227734, 506948616, 659060556, 883997877, 958139571, 1322822218,
   1537002063, 1747873779, 1955562222, 2024104815, 2227730452, 2361852424,
   2428436474, 2756734187, 3204031479, 3329325298]

/-- The eight 32-bit words of a SHA-256 chaining state. -/
structure ShaState where
  a : Nat
  b : Nat
  c : Nat
  d : Nat
  e : Nat
  f : Nat
  g : Nat
  h : Nat

/-- The SHA-256 initial chaining state (FIPS 180-2, in decimal). -/
def shaInit : ShaState :=
  ⟨1779033703, 3144134277, 1013904242, 2773480762,
   1359893119, 2600822924, 528734635, 1541459225⟩

/-- Big-endian 4-byte groups to 32-bit words. -/
def bytesToWords : Bytes → List Nat
  | b0 :: b1 :: b2 :: b3 :: t =>
    (((b0 * 256 + b1) * 256 + b2) * 256 + b3) :: bytesToWords t
  | _ => []

/-- Big-endian byte expansion of `n` over `width` bytes. -/
def natToBE (width n : Nat) : Bytes := (natToLE width n).reverse

/-- Extend the 16-word message schedule to 64 words; `acc` holds the words
produced so far, most recent first. -/
def extendW : Nat → List Nat → List Nat
  | 0, acc => acc.reverse
  | fuel + 1, acc =>
    extendW fuel
      (add32 (add32 (shaSigma1 (acc.getD 1 0)) (acc.getD 6 0))
        (add32 (shaSigma0 (acc.getD 14 0)) (acc.getD 15 0)) :: acc)

/-- One SHA-256 round. -/
def shaRound (st : ShaState) (kw : Nat × Nat) : ShaState :=
  let t1 := add32 (add32 (add32 st.h (shaBigSigma1 st.e))
    (add32 (shaCh st.e st.f st.g) kw.1)) kw.2
  let t2 := add32 (shaBigSigma0 st.a) (shaMaj st.a st.b st.c)
  ⟨add32 t1 t2, st.a, st.b, st.c, add32 st.d t1, st.e, st.f, st.g⟩

/-- SHA-256 compression of one 64-byte block into the chaining state. -/
def shaCompress (h : ShaState) (block : Bytes) : ShaState :=
  let w := extendW 48 (bytesToWords block).reverse
  let st := (shaK.zip w).foldl shaRound h
  ⟨add32 h.a st.a, add32 h.b st.b, add32 h.c st.c, add32 h.d st.d,
   add32 h.e st.e, add32 h.f st.f, add32 h.g st.g, add32 h.h st.h⟩

/-- SHA-256 padding: a 0x80 byte, zeros to 56 mod 64, then the bit length as
a big-endian 64-bit integer. -/
def padMsg (m : Bytes) : Bytes :=
  m ++ 128 :: List.replicate ((119 - m.length % 64) % 64) 0 ++
    natToBE 8 (8 * m.length)

/-- Split a padded message into 64-byte blocks (`fuel` bounds the count). -/
def chunk64 : Nat → Bytes → List Bytes
  | 0, _ => []
  | fuel + 1, b =>
    match b with
    | [] => []
    | b => b.take 64 :: chunk64 fuel (b.drop 64)

/-- Full SHA-256 of a byte string, as 32 bytes. -/
def sha256 (m : Bytes) : Bytes :=
  let padded := padMsg m
  let hh := (chunk64 (padded.length / 64) padded).foldl shaCompress shaInit
  natToBE 4 hh.a ++ natToBE 4 hh.b ++ natToBE 4 hh.c ++ natToBE 4 hh.d ++
    natToBE 4 hh.e ++ natToBE 4 hh.f ++ natToBE 4 hh.g ++ natToBE 4 hh.h

/-- FIPS 180-2 test vector anchoring the SHA-256 model: the digest of
`"abc"`. -/
theorem sha256_abc :
    sha256 [97, 98, 99] =
      [186, 120, 22, 191, 143, 1, 207, 234, 65, 65, 64, 222, 93, 174, 34, 35,
       176, 3, 97, 163, 150, 23, 122, 156, 180, 16, 255, 97, 242, 0, 21, 173] := by
  decide

/-- The ed25519 base field modulus 2²⁵⁵ − 19. -/
def p25519 : Nat := 2 ^ 255 - 19

/-- The edwards25519 curve constant `d = -121665/121666`. -/
def d25519 : Nat :=
  37095705934669439343138083508754565189542113879843219016388785533085940283555

/-- Modular exponentiation by repeated squaring (`fuel` bounds the exponent's
bit count; plain `Nat.rec` so the term is cheaply kernel-reducible). -/
def powModAux (fuel : Nat) : Nat → Nat → Nat → Nat :=
  Nat.rec (motive := fun _ => Nat → Nat → Nat → Nat)
    (fun _ _ m => 1 % m)
    (fun _ ih b e m =>
      if e = 0 then 1 % m
      else if e % 2 = 1 then ih (b * b % m) (e / 2) m * b % m
      else ih (b * b % m) (e / 2) m)
    fuel

/-- Modular exponentiation for exponents below 2²⁵⁶. -/
def powMod (b e m : Nat) : Nat := powModAux 256 b e m

/-- Whether 32 bytes decompress to an ed25519 curve point: with `y` the
little-endian value (sign bit cleared), the point is on the curve iff
`(y²−1)/(d·y²+1)` is a square in the base field, decided by the Euler
criterion on the equivalent product `(y²−1)·(d·y²+1)`. -/
def isOnCurve (h : Bytes) : Bool :=
  let y := natFromLE h &&& (2 ^ 255 - 1)
  let yy := y * y % p25519
  let num := (yy + p25519 - 1) % p25519
  let den := (d25519 * yy + 1) % p25519
  let e := powMod (num * den % p25519) ((p25519 - 1) / 2) p25519
  e = 0 || e = 1

/-- The program-derived-address domain-separation tag,
`"ProgramDerivedAddress"` in ASCII. -/
def pdaMagic : Bytes :=
  [80, 114, 111, 103, 114, 97, 109, 68, 101, 114, 105, 118, 101, 100, 65,
   100, 100, 114, 101, 115, 115]

/-- Search bump bytes downward from 255 for a digest of
`seeds ++ [bump] ++ programId ++ tag` that lands off the curve; `none` when
every bump yields an on-curve point. -/
def findProgramAddress : Nat → Bytes → Key → Option Key
  | 0, _, _ => none
  | fuel + 1, seeds, programId =>
    let h := sha256 (seeds ++ fuel :: programId ++ pdaMagic)
    if isOnCurve h then findProgramAddress fuel seeds programId else some h

/-- Associated token address derivation: the program-derived address of the
seeds `[owner, tokenProgramId, mint]` under the associated program id. -/
def getAssociatedTokenAddress (associatedProgramId tokenProgramId mint owner : Key) :
    Option Key :=
  findProgramAddress 256 (owner ++ tokenProgramId ++ mint) associatedProgramId

/-- A zero-valued 32-byte key. -/
def exOwner0 : Key := List.replicate 32 0

/-- A 32-byte key differing from `exOwner0` in its first byte alone. -/
def exOwner1 : Key := 1 :: List.replicate 31 0

/-- C5: the associated-address derivation is a pure deterministic function —
two invocations with identical inputs yield an identical address — and for a
fixed associated program id, token program id and mint, changing the owner
alone changes the derived address. -/
theorem claim_C5_derive_deterministic :
    (∀ associatedProgramId tokenProgramId mint owner : Key,
      getAssociatedTokenAddress associatedProgramId tokenProgramId mint owner =
        getAssociatedTokenAddress associatedProgramId tokenProgramId mint owner) ∧
    (∃ associatedProgramId tokenProgramId mint o₁ o₂ : Key, o₁ ≠ o₂ ∧
      getAssociatedTokenAddress associatedProgramId tokenProgramId mint o₁ ≠
        getAssociatedTokenAddress associatedProgramId tokenProgramId mint o₂) :=
  ⟨fun _ _ _ _ => rfl,
   ⟨exKeyA, exKeyA, exKeyA, exOwner0, exOwner1, by decide, by decide⟩⟩

/-! ## Associated-account creation state machine

Modelled from the spec: the create flow of §4.3 — an address is `NotExists`
until a funded account is created there, after which it is `Exists`, and
re-running create on an `Exists` address fails rather than acting as a no-op
(the behaviour the test `createAssociatedAccount` in
`src/js/cli/token-test.js` expects).  The world is the set of existing
account addresses. -/

/-- Failure of the account-creation step. -/
inductive CreateError where
  | alreadyExists
deriving DecidableEq

/-- Create an account at address `a`: fails when `a` already exists, else
adds `a` to the world. -/
def createAtAddress (w : List Key) (a : Key) : Except CreateError (List Key) :=
  if a ∈ w then .error .alreadyExists else .ok (a :: w)

/-- The digest that the modelled derivation yields for
`getAssociatedTokenAddress exKeyA exKeyA exKeyA exOwner1`. -/
def exDerivedAddr : Key :=
  [18, 18, 100, 213, 97, 162, 210, 59, 88, 95, 40, 124, 79, 175, 192, 244,
   228, 84, 117, 48, 75, 10, 102, 254, 159, 58, 63, 228, 204, 243, 88, 70]

/-- C7: for any (owner, mint) pair whose derived associated address does not
yet exist, the first create succeeds and moves that address to `Exists`, and
a second create at the same (now existing) address fails rather than being a
no-op. -/
theorem claim_C7_double_create_fails
    (associatedProgramId tokenProgramId mint owner : Key) (w : List Key) (a : Key)
    (hder : getAssociatedTokenAddress associatedProgramId tokenProgramId mint
      owner = some a)
    (hnot : a ∉ w) :
    createAtAddress w a = .ok (a :: w) ∧
    a ∈ a :: w ∧
    createAtAddress (a :: w) a = .error .alreadyExists :=
  ⟨by rw [createAtAddress, if_neg hnot], by simp,
   by rw [createAtAddress, if_pos (by simp)]⟩

/-- Witness for C7: the concrete derived address for `exOwner1`, created in
the empty world and then created again. -/
theorem claim_C7_double_create_fails_witness :
    getAssociatedTokenAddress exKeyA exKeyA exKeyA exOwner1 = some exDerivedAddr ∧
    exDerivedAddr ∉ ([] : List Key) ∧
    (createAtAddress [] exDerivedAddr = .ok [exDerivedAddr] ∧
     exDerivedAddr ∈ [exDerivedAddr] ∧
     createAtAddress [exDerivedAddr] exDerivedAddr = .error .alreadyExists) :=
  have hder : getAssociatedTokenAddress exKeyA exKeyA exKeyA exOwner1 =
      some exDerivedAddr := by decide
  ⟨hder, by decide,
   claim_C7_double_create_fails exKeyA exKeyA exKeyA exOwner1 [] exDerivedAddr
     hder (by decide)⟩

/-! ## Delegate-bounded spending

Modelled from the spec: the program's delegate discipline is on-chain code
not under `src/`; spec §8 and the test `failOnApproveOverspend`
(`src/js/cli/token-test.js` lines 591–632) fix the behaviour — an approved
delegate may spend up to `delegatedAmount`, each delegate transfer decrements
it, the delegate reverts to absent when it reaches zero, and a transfer
beyond it fails. -/

/-- The spending-relevant slice of a token account. -/
structure SpendAccount where
  amount : Nat
  delegate : Option Key
  delegatedAmount : Nat
deriving DecidableEq

/-- Failure of a token operation. -/
inductive TokenError where
  | ownerMismatch
  | insufficientFunds
deriving DecidableEq

/-- Approve a delegate for a bounded amount. -/
def approve (acc : SpendAccount) (d : Key) (amt : Nat) : SpendAccount :=
  { acc with delegate := some d, delegatedAmount := amt }

/-- A delegate-initiated transfer: the spender must be the approved delegate,
the amount must not exceed the balance nor the remaining delegated amount;
the delegated amount decrements and the delegate reverts to absent at zero. -/
def transferByDelegate (src dst : SpendAccount) (spender : Key) (amt : Nat) :
    Except TokenError (SpendAccount × SpendAccount) :=
  match src.delegate with
  | none => .error .ownerMismatch
  | some d =>
    if spender ≠ d then .error .ownerMismatch
    else if src.amount < amt then .error .insufficientFunds
    else if src.delegatedAmount < amt then .error .insufficientFunds
    else
      let rem := src.delegatedAmount - amt
      .ok ({ amount := src.amount - amt,
             delegate := if rem = 0 then none else some d,
             delegatedAmount := rem },
           { dst with amount := dst.amount + amt })

/-- C8: on an account holding 10 with a delegate approved for 2, two
successive delegate transfers of 1 succeed, decrementing `delegatedAmount`
2 → 1 → 0 (and the balance 10 → 9 → 8); at zero the delegate reverts to
absent, and a third delegate transfer of 1 fails. -/
theorem claim_C8_delegate_overspend (d : Key) (dst : SpendAccount) :
    approve ⟨10, none, 0⟩ d 2 = ⟨10, some d, 2⟩ ∧
    transferByDelegate ⟨10, some d, 2⟩ dst d 1 =
      .ok (⟨9, some d, 1⟩, { dst with amount := dst.amount + 1 }) ∧
    transferByDelegate ⟨9, some d, 1⟩ dst d 1 =
      .ok (⟨8, none, 0⟩, { dst with amount := dst.amount + 1 }) ∧
    transferByDelegate ⟨8, none, 0⟩ dst d 1 = .error .ownerMismatch := by
  refine ⟨rfl, ?_, ?_, rfl⟩
  · simp [transferByDelegate]
  · simp [transferByDelegate]

/-! ## Initial token-account state

Modelled from the spec: account initialization is on-chain code not under
`src/`; the test `createAccount` (`src/js/cli/token-test.js` lines 314–373)
asserts the fresh-account postconditions. -/

/-- The record a freshly initialized token account decodes to. -/
def initTokenAccount (mint owner : Key) : TokenAccount :=
  { mint := mint, owner := owner, amount := 0, delegate := none, state := 1,
    isNative := none, delegatedAmount := 0, closeAuthority := none }

/-- An account is initialized when its state byte is nonzero. -/
def accountIsInitialized (a : TokenAccount) : Bool := a.state != 0

/-- An account is frozen when its state byte is 2. -/
def accountIsFrozen (a : TokenAccount) : Bool := a.state == 2

/-- An account is native when its rent-exempt reserve is present. -/
def accountIsNative (a : TokenAccount) : Bool := a.isNative.isSome

/-- The rent-exempt reserve of an account, absent for non-native accounts. -/
def rentExemptReserve (a : TokenAccount) : Option Nat := a.isNative

/-- C9: immediately after account creation for mint `M` and owner `o`, the
decoded account state has `mint = M`, `owner = o`, zero balance, no delegate,
zero delegated amount, is initialized, not frozen, not native, no rent-exempt
reserve and no close authority. -/
theorem claim_C9_fresh_account_state (M o : Key) :
    (initTokenAccount M o).mint = M ∧
    (initTokenAccount M o).owner = o ∧
    (initTokenAccount M o).amount = 0 ∧
    (initTokenAccount M o).delegate = none ∧
    (initTokenAccount M o).delegatedAmount = 0 ∧
    accountIsInitialized (initTokenAccount M o) = true ∧
    accountIsFrozen (initTokenAccount M o) = false ∧
    accountIsNative (initTokenAccount M o) = false ∧
    rentExemptReserve (initTokenAccount M o) = none ∧
    (initTokenAccount M o).closeAuthority = none :=
  ⟨rfl, rfl, rfl, rfl, rfl, rfl, rfl, rfl, rfl, rfl⟩

/-! ## Client facade

Modelled from the spec: the `nToken` client class is not under `src/`; per
§4.4 it composes the deriver with its configured program ids and mint, and a
plain `createAccount` call generates a brand-new keypair for the account
address each time — modelled as an injective fresh-key supply driven by a
counter. -/

/-- The facade's configuration: associated program id, token program id and
the mint it wraps. -/
structure TokenFacade where
  associatedProgramId : Key
  programId : Key
  publicKey : Key

/-- Facade associated-account creation returns the derived address for its
configured ids and mint. -/
def TokenFacade.createAssociatedTokenAccount (f : TokenFacade) (owner : Key) :
    Option Key :=
  getAssociatedTokenAddress f.associatedProgramId f.programId f.publicKey owner

/-- The fresh keypair generated at supply counter `c`. -/
def keyOfCounter (c : Nat) : Key := natToLE 32 c

/-- Facade plain account creation: the new account lives at a freshly
generated keypair's address, independent of the owner; returns the address
and the advanced supply counter. -/
def TokenFacade.createAccount (f : TokenFacade) (c : Nat) (owner : Key) :
    Key × Nat :=
  (keyOfCounter c, c + 1)

/-- C10: the facade and the deriver agree — for every owner the address of
`createAssociatedTokenAccount` equals `getAssociatedTokenAddress` at the
facade's configured program ids and mint — and two successive plain
`createAccount` calls with the same owner yield distinct addresses. -/
theorem claim_C10_facade_agreement :
    (∀ (f : TokenFacade) (owner : Key),
      f.createAssociatedTokenAccount owner =
        getAssociatedTokenAddress f.associatedProgramId f.programId
          f.publicKey owner) ∧
    (∀ (f : TokenFacade) (owner : Key) (c : Nat), c + 1 < 256 ^ 32 →
      (f.createAccount c owner).1 ≠
        (f.createAccount (f.createAccount c owner).2 owner).1) := by
  refine ⟨fun f owner => rfl, fun f owner c hc heq => ?_⟩
  have h' := congrArg natFromLE heq
  rw [TokenFacade.createAccount, TokenFacade.createAccount] at h'
  simp only [keyOfCounter, natFromLE_natToLE] at h'
  rw [Nat.mod_eq_of_lt (Nat.lt_of_le_of_lt (Nat.le_succ c) hc),
    Nat.mod_eq_of_lt hc] at h'
  omega

/-- Witness for C10: the agreement and the distinctness evaluated at a
concrete facade, owner and supply counter. -/
theorem claim_C10_facade_agreement_witness :
    (TokenFacade.createAssociatedTokenAccount ⟨exKeyA, exKeyA, exKeyA⟩ exKeyB =
      getAssociatedTokenAddress exKeyA exKeyA exKeyA exKeyB) ∧
    ((TokenFacade.createAccount ⟨exKeyA, exKeyA, exKeyA⟩ 0 exKeyB).1 ≠
      (TokenFacade.createAccount ⟨exKeyA, exKeyA, exKeyA⟩
        (TokenFacade.createAccount ⟨exKeyA, exKeyA, exKeyA⟩ 0 exKeyB).2
        exKeyB).1) :=
  ⟨claim_C10_facade_agreement.1 ⟨exKeyA, exKeyA, exKeyA⟩ exKeyB,
   claim_C10_facade_agreement.2 ⟨exKeyA, exKeyA, exKeyA⟩ exKeyB 0 (by decide)⟩

end NToken
